import Mathlib

/-!
Shallow embedding of training_utils.py, the batching and training-callback
code of the multi-retrieval repository.  Numpy arrays are modelled by nested
lists, machine floats by exact rationals, and raised Python exceptions by an
Except monad.  The collaborators text_utils / image_utils / eval_utils are
absent from the sources and are modelled from the specification where a claim
depends on them; each such definition is marked in its doc comment.
-/

/-- Python exceptions the embedded code can raise: the NameError from the
unbound names at line 66, the ValueError from np.zeros on a negative
dimension or np.vstack on an empty list, and the IndexError from assigning
column 0 of a zero-width array. -/
inductive PyErr where
  | nameError : PyErr
  | valueError : PyErr
  | indexError : PyErr
deriving DecidableEq, Repr

/-- Recognized configuration options of the argparse namespace args.  A
subsample count of 0 models a disabled subsample (the code tests with > 0). -/
structure Args where
  docs_per_batch : ℕ
  seq_len : ℕ
  subsample_text : ℕ
  subsample_image : ℕ
  end2end : Bool
deriving DecidableEq, Repr

/-- A document vers: vers[0] is the image tuple list and vers[1] the sentence
tuple list; lines 48-49 project component 0 of every tuple, so a document is
embedded directly as the two identifier lists. -/
structure Doc where
  images : List ℕ
  sents : List ℕ
deriving DecidableEq, Repr

/-- State of a DocumentSequence as set up by __init__ (lines 9-31).  Note the
constructor stores the augment parameter under the misspelled attribute name
argument; the field featW records the column count of the image feature
matrix, which numpy propagates as cur_images.shape[-1] even for an empty
row selection. -/
structure DocumentSequence where
  data_in : List Doc
  image_matrix : ℕ → List ℚ
  image_idx2row : ℕ → ℕ
  max_sentences_per_doc : ℕ
  max_images_per_doc : ℕ
  vocab : ℕ → List ℕ
  args : Args
  argument : Bool := true
  shuffle_sentences : Bool := false
  shuffle_images : Bool := true
  shuffle_docs : Bool := true
  featW : ℕ

/-- Modelled from the spec: text_utils.text_to_matrix is absent from the
sources; per the spec it converts a sentence identifier list to a padded
per-sentence token-index matrix via the vocabulary, one row per sentence,
each row truncated or zero-padded to width max_len. -/
def text_to_matrix (vocab : ℕ → List ℕ) (max_len : ℕ) (sents : List ℕ) :
    List (List ℕ) :=
  sents.map (fun s => (vocab s).take max_len ++
    List.replicate (max_len - (vocab s).length) 0)

/-- Modelled from the spec: image_utils.images_to_matrix is absent from the
sources; per the spec it converts image identifiers, through the index
mapping, to the corresponding dense feature rows of the feature matrix. -/
def images_to_matrix (mat : ℕ → List ℚ) (idx2row : ℕ → ℕ) (ids : List ℕ) :
    List (List ℚ) :=
  ids.map (fun i => mat (idx2row i))

/-- Lines 49-63 for the text modality: optionally shuffle the sentence list
(skipped when text subsampling is on), then, when subsampling is on, shuffle
and truncate to the subsample count.  The nondeterministic np.random.shuffle
is passed in as the explicit permutation function shufT. -/
def curText (S : DocumentSequence) (shufT : List ℕ → List ℕ)
    (sents : List ℕ) : List ℕ :=
  let t := if S.shuffle_sentences ∧ ¬ (0 < S.args.subsample_text)
    then shufT sents else sents
  if 0 < S.args.subsample_text then (shufT t).take S.args.subsample_text else t

/-- Lines 48-59 for the image modality, mirror of curText. -/
def curImages (S : DocumentSequence) (shufI : List ℕ → List ℕ)
    (images : List ℕ) : List ℕ :=
  let t := if S.shuffle_images ∧ ¬ (0 < S.args.subsample_image)
    then shufI images else images
  if 0 < S.args.subsample_image then (shufI t).take S.args.subsample_image else t

/-- Padding target for the image axis (lines 67-81): the subsample count when
image subsampling is on, max_images_per_doc otherwise. -/
def targetI (S : DocumentSequence) : ℕ :=
  if 0 < S.args.subsample_image then S.args.subsample_image
  else S.max_images_per_doc

/-- Padding target for the sentence axis (lines 87-92). -/
def targetT (S : DocumentSequence) : ℕ :=
  if 0 < S.args.subsample_text then S.args.subsample_text
  else S.max_sentences_per_doc

/-- Text padding row (lines 91-96): a zero row of width seq_len whose first
column is then set to the reserved unknown-token index 1, working around the
downstream cudnn limitation on empty sequences. -/
def unkPadRow (seq_len : ℕ) : List ℕ :=
  1 :: List.replicate (seq_len - 1) 0

/-- Per-document output of one iteration of the loop at lines 47-105: the
padded text and image matrices and the recorded pre-padding row counts. -/
structure DocOut where
  text : List (List ℕ)
  image : List (List ℚ)
  text_n : ℕ
  image_n : ℕ
deriving DecidableEq, Repr

/-- One iteration of the per-document loop (lines 47-105): shuffle and
subsample the identifier lists, featurize, record pre-padding counts, pad.
In end2end mode line 66 evaluates the unbound names augment and args (the
constructor stored augment as self.argument), raising NameError before any
image work.  A featurized matrix taller than its padding target makes
np.zeros receive a negative dimension (ValueError), and seq_len = 0 makes
the column assignment at line 96 an IndexError. -/
def processDoc (S : DocumentSequence) (shufT shufI : List ℕ → List ℕ)
    (d : Doc) : Except PyErr DocOut :=
  let imgIds := curImages S shufI d.images
  let txtIds := curText S shufT d.sents
  if S.args.end2end then .error .nameError
  else
    let imgM := images_to_matrix S.image_matrix S.image_idx2row imgIds
    if targetI S < imgM.length then .error .valueError
    else
      let txtM := text_to_matrix S.vocab S.args.seq_len txtIds
      if targetT S < txtM.length then .error .valueError
      else if S.args.seq_len = 0 then .error .indexError
      else .ok {
        text := txtM ++ List.replicate (targetT S - txtM.length)
          (unkPadRow S.args.seq_len),
        image := imgM ++ List.replicate (targetI S - imgM.length)
          (List.replicate S.featW 0),
        text_n := txtM.length,
        image_n := imgM.length }

/-- Value produced by processDoc when no exception fires. -/
def processDocOk (S : DocumentSequence) (shufT shufI : List ℕ → List ℕ)
    (d : Doc) : DocOut :=
  let imgM := images_to_matrix S.image_matrix S.image_idx2row
    (curImages S shufI d.images)
  let txtM := text_to_matrix S.vocab S.args.seq_len (curText S shufT d.sents)
  { text := txtM ++ List.replicate (targetT S - txtM.length)
      (unkPadRow S.args.seq_len),
    image := imgM ++ List.replicate (targetI S - imgM.length)
      (List.replicate S.featW 0),
    text_n := txtM.length,
    image_n := imgM.length }

/-- Sequential per-document loop: it stops at the first raised exception. -/
def processDocs (f : Doc → Except PyErr DocOut) :
    List Doc → Except PyErr (List DocOut)
  | [] => .ok []
  | d :: ds => do
    let o ← f d
    let os ← processDocs f ds
    .ok (o :: os)

/-- Embeds DocumentSequence.__len__ (lines 33-34): int(np.ceil(N / B)). -/
def numBatches (N B : ℕ) : ℕ :=
  (⌈(N : ℚ) / (B : ℚ)⌉).toNat

/-- Lines 37-43: slice out the documents of batch idx; on the final batch,
extend the (copied) slice with leading documents of the collection to fill
the remainder.  Python list slicing never reads out of range. -/
def batchDocs (data : List Doc) (B idx : ℕ) : List Doc :=
  let cur := (data.drop (idx * B)).take B
  if (idx : ℤ) = (numBatches data.length B : ℤ) - 1 then
    cur ++ data.take (B - cur.length)
  else cur

/-- The four stacked arrays returned by __getitem__ (lines 107-118).  The
count vectors keep a trailing singleton axis in numpy, dropped here; the
placeholder target y of two zero vectors carries no claim and is omitted. -/
structure Batch where
  texts : List (List (List ℕ))
  images : List (List (List ℚ))
  text_n : List ℕ
  image_n : List ℕ
deriving DecidableEq, Repr

/-- Stacking of the per-document tensors (lines 101-111). -/
def stackBatch (os : List DocOut) : Batch :=
  { texts := os.map DocOut.text,
    images := os.map DocOut.image,
    text_n := os.map DocOut.text_n,
    image_n := os.map DocOut.image_n }

/-- Embeds DocumentSequence.__getitem__ (lines 36-118).  np.vstack raises
ValueError on an empty list, which happens exactly when the batch document
slice is empty (possible only for an out-of-range batch index). -/
def getitem (S : DocumentSequence) (shufT shufI : List ℕ → List ℕ)
    (idx : ℕ) : Except PyErr Batch :=
  let docs := batchDocs S.data_in S.args.docs_per_batch idx
  if docs.isEmpty then .error .valueError
  else (processDocs (processDoc S shufT shufI) docs).map stackBatch

/-- Embeds DocumentSequence.on_epoch_end (lines 121-123): shuffle the shared
document collection in place between epochs when enabled; the permutation
np.random.shuffle applies is the explicit argument shufD.  The Python method
returns None; its entire effect is the new contents of data_in. -/
def DocumentSequence.epochEnd (S : DocumentSequence)
    (shufD : List Doc → List Doc) : List Doc :=
  if S.shuffle_docs then shufD S.data_in else S.data_in

/-- The two list objects alive during lines 37-43: the shared collection
data_in and the local cur_doc_b.  The slice at line 39 allocates a fresh
list object and the += at line 43 extends that fresh object, so the two
cells are tracked separately. -/
structure BatchLocals where
  data_in : List Doc
  cur_doc_b : List Doc
deriving DecidableEq, Repr

/-- Line 39: cur_doc_b = self.data_in[start:end] (a fresh copy). -/
def sliceLocals (data : List Doc) (B idx : ℕ) : BatchLocals :=
  { data_in := data, cur_doc_b := (data.drop (idx * B)).take B }

/-- Lines 41-43: on the final batch, cur_doc_b += self.data_in[:docs_to_add]
extends only the local list object. -/
def extendLocals (B : ℕ) (l : BatchLocals) (idx : ℕ) : BatchLocals :=
  if (idx : ℤ) = (numBatches l.data_in.length B : ℤ) - 1 then
    { l with cur_doc_b := l.cur_doc_b ++ l.data_in.take (B - l.cur_doc_b.length) }
  else l

/-- Statement-level execution of the batch selection (lines 37-43). -/
def selectBatchRun (data : List Doc) (B idx : ℕ) : BatchLocals :=
  extendLocals B (sliceLocals data B idx) idx

/-- Decidable equality for Except values, by structural comparison. -/
instance {e a : Type} [DecidableEq e] [DecidableEq a] :
    DecidableEq (Except e a) := fun x y =>
  match x, y with
  | .error u, .error v =>
    if h : u = v then .isTrue (congrArg Except.error h)
    else .isFalse (fun hh => h (Except.error.inj hh))
  | .ok u, .ok v =>
    if h : u = v then .isTrue (congrArg Except.ok h)
    else .isFalse (fun hh => h (Except.ok.inj hh))
  | .error _, .ok _ => .isFalse Except.noConfusion
  | .ok _, .error _ => .isFalse Except.noConfusion

/-- Comparison of a float against a best-so-far that may be np.inf: none
models np.inf, so every finite value compares below it. -/
def ltOptInf (v : ℚ) : Option ℚ → Bool
  | none => true
  | some b => v < b

/-- A checkpoint path, abstracting the formatted string of lines 148-149 to
the data it embeds: which of the two models it stores, the checkpoint
directory, the epoch number and the validation loss. -/
structure CkptPath where
  isImage : Bool
  dir : ℕ
  epoch : ℕ
  val_loss : ℚ
deriving DecidableEq, Repr

/-- Mutable state of a SaveDocModels callback after on_train_begin (lines
138-140): best_val_loss starts at np.inf (none) and the recorded best
checkpoint tuple starts at None.  The tuple (image path, text path, logs,
epoch) keeps logs abstracted to its val_loss entry. -/
structure SaveState where
  best_val_loss : Option ℚ
  best_checkpoints_and_logs : Option (CkptPath × CkptPath × ℚ × ℕ)
deriving DecidableEq, Repr

/-- Embeds SaveDocModels.on_train_begin (lines 138-140). -/
def save_on_train_begin : SaveState :=
  { best_val_loss := none, best_checkpoints_and_logs := none }

/-- Embeds SaveDocModels.on_epoch_end (lines 142-153) for checkpoint
directory dir.  The second component reports the write effect: the two
model files saved this epoch, or none when the method returned early. -/
def save_on_epoch_end (dir : ℕ) (s : SaveState) (epoch : ℕ) (val_loss : ℚ) :
    SaveState × Option (CkptPath × CkptPath) :=
  if ltOptInf val_loss s.best_val_loss then
    let ip : CkptPath := ⟨true, dir, epoch, val_loss⟩
    let tp : CkptPath := ⟨false, dir, epoch, val_loss⟩
    ({ best_val_loss := some val_loss,
       best_checkpoints_and_logs := some (ip, tp, val_loss, epoch) },
     some (ip, tp))
  else (s, none)

/-- Epoch-end calls of SaveDocModels over a run: epochs are numbered from e
and the per-epoch validation losses are the given list.  Returns the final
state and the per-epoch write effects. -/
def saveRunAux (dir : ℕ) (s : SaveState) (e : ℕ) :
    List ℚ → SaveState × List (Option (CkptPath × CkptPath))
  | [] => (s, [])
  | l :: ls =>
    let p := save_on_epoch_end dir s e l
    let q := saveRunAux dir p.1 (e + 1) ls
    (q.1, p.2 :: q.2)

/-- A full training run of SaveDocModels: on_train_begin then one
on_epoch_end per listed validation loss, epochs numbered from 0. -/
def saveRun (dir : ℕ) (losses : List ℚ) :
    SaveState × List (Option (CkptPath × CkptPath)) :=
  saveRunAux dir save_on_train_begin 0 losses

/-- Constructor configuration of ReduceLROnPlateauAfterValLoss: the
activation threshold (np.inf by default, modelled by none) together with
the settings of the underlying keras ReduceLROnPlateau in mode min with
monitor val_loss: reduction factor, patience, min_delta, cooldown window
length and learning-rate floor. -/
structure PlateauCfg where
  activation_val_loss : Option ℚ := none
  factor : ℚ
  patience : ℤ
  min_delta : ℚ
  cooldown : ℤ
  min_lr : ℚ
deriving DecidableEq, Repr

/-- Mutable state of a ReduceLROnPlateauAfterValLoss callback: the one-way
activation flag of the subclass (line 165) plus the internal state of the
underlying plateau detector (cooldown counter, wait counter, best-seen
value with none for np.inf) and the learning rate of the optimizer it
drives.  The counters are integers: before activation the cooldown counter
is decremented every epoch and drifts negative. -/
structure PlateauState where
  val_threshold_activated : Bool
  cooldown_counter : ℤ
  wait : ℤ
  best : Option ℚ
  lr : ℚ
deriving DecidableEq, Repr

/-- State after __init__ (lines 162-165): the flag is down and the inherited
_reset has zeroed the counters and set best to np.inf; lr0 is the learning
rate currently in the optimizer. -/
def plateauInit (lr0 : ℚ) : PlateauState :=
  { val_threshold_activated := false, cooldown_counter := 0, wait := 0,
    best := none, lr := lr0 }

/-- Modelled from the spec: the _reset of the external keras ReduceLROnPlateau
(mode min), which the override at line 175 invokes; per the spec it returns
the internal cooldown/counter state to its initial values. -/
def plateauReset (s : PlateauState) : PlateauState :=
  { s with cooldown_counter := 0, wait := 0, best := none }

/-- Embeds the in_cooldown override (lines 167-177): on the first call whose
current val_loss is below the activation threshold, raise the one-way flag
and reset the detector, then report cooldown whenever the counter is
positive or the flag is still down. -/
def in_cooldown (cfg : PlateauCfg) (val_loss : ℚ) (s : PlateauState) :
    PlateauState × Bool :=
  let s1 := if ¬ s.val_threshold_activated ∧
      ltOptInf val_loss cfg.activation_val_loss then
    { (plateauReset s) with val_threshold_activated := true }
  else s
  (s1, decide (0 < s1.cooldown_counter) || ! s1.val_threshold_activated)

/-- Modelled from the spec: the monitor_op of the external keras
ReduceLROnPlateau in mode min, np.less(current, best - min_delta), with
best possibly np.inf (none). -/
def monitor_op (cfg : PlateauCfg) (current : ℚ) : Option ℚ → Bool
  | none => true
  | some b => current < b - cfg.min_delta

/-- Embeds ReduceLROnPlateauAfterValLoss.on_epoch_end (lines 179-181): store
current_logs, then run the epoch-end logic of the external keras
ReduceLROnPlateau, which is modelled from the spec (a plateau policy with a
cooldown window): while in cooldown, decrement the counter and hold the wait
at zero; on an improvement over best, record it and zero the wait; otherwise,
outside cooldown, advance the wait and once it reaches the patience reduce
the learning rate towards the floor and start a new cooldown window.  Every
in_cooldown call goes through the override above.  The Bool reports whether
this call reduced the learning rate. -/
def plateau_on_epoch_end (cfg : PlateauCfg) (s : PlateauState)
    (val_loss : ℚ) : PlateauState × Bool :=
  let p1 := in_cooldown cfg val_loss s
  let s2 := if p1.2 then
      { p1.1 with cooldown_counter := p1.1.cooldown_counter - 1, wait := 0 }
    else p1.1
  if monitor_op cfg val_loss s2.best then
    ({ s2 with best := some val_loss, wait := 0 }, false)
  else
    let p2 := in_cooldown cfg val_loss s2
    if p2.2 then (p2.1, false)
    else
      let s4 := { p2.1 with wait := p2.1.wait + 1 }
      if cfg.patience ≤ s4.wait then
        if cfg.min_lr < s4.lr then
          ({ s4 with lr := max (s4.lr * cfg.factor) cfg.min_lr,
                     cooldown_counter := cfg.cooldown, wait := 0 }, true)
        else (s4, false)
      else (s4, false)

/-- Trace of a run of the deferred plateau reducer: the state after each
epoch-end call, paired with whether that call reduced the learning rate. -/
def plateauRunAux (cfg : PlateauCfg) (s : PlateauState) :
    List ℚ → List (PlateauState × Bool)
  | [] => []
  | v :: vs =>
    let p := plateau_on_epoch_end cfg s v
    p :: plateauRunAux cfg p.1 vs

/-- A full run from the freshly constructed callback state. -/
def plateauRun (cfg : PlateauCfg) (lr0 : ℚ) (losses : List ℚ) :
    List (PlateauState × Bool) :=
  plateauRunAux cfg (plateauInit lr0) losses

/-- State of a LearningRateLinearIncrease callback (lines 220-226) together
with the learning rate of the optimizer it drives. -/
structure WarmupState where
  max_lr : ℚ
  warmup_steps : ℕ
  cur_step_count : ℕ
  lr : ℚ
deriving DecidableEq, Repr

/-- Embeds LearningRateLinearIncrease.on_train_begin (lines 228-229): force
the learning rate to zero. -/
def warmup_on_train_begin (c : WarmupState) : WarmupState :=
  { c with lr := 0 }

/-- Embeds LearningRateLinearIncrease.on_batch_begin (lines 231-239): within
the warmup window, raise the rate by max_lr / warmup_steps and advance the
step counter; afterwards return immediately. -/
def warmup_on_batch_begin (c : WarmupState) : WarmupState :=
  if c.warmup_steps ≤ c.cur_step_count then c
  else { c with
    lr := c.lr + 1 / (c.warmup_steps : ℚ) * c.max_lr,
    cur_step_count := c.cur_step_count + 1 }

/-- Best-so-far value after folding a list of seen losses into an initial
best (np.inf as none), exactly as the update at lines 143-145 does. -/
def foldBest (b : Option ℚ) (pre : List ℚ) : Option ℚ :=
  pre.foldl (fun acc v => if ltOptInf v acc then some v else acc) b

/-- Concrete example document for witnesses. -/
def exDoc : Doc := ⟨[0], [5]⟩

/-- Concrete example configuration for witnesses. -/
def exArgs : Args :=
  { docs_per_batch := 1, seq_len := 2, subsample_text := 0,
    subsample_image := 0, end2end := false }

/-- Concrete example sequence for witnesses: one document, one image of
feature width one, identity shuffles provided at the call sites. -/
def exSeq : DocumentSequence :=
  { data_in := [exDoc],
    image_matrix := fun _ => [7],
    image_idx2row := id,
    max_sentences_per_doc := 2,
    max_images_per_doc := 1,
    vocab := fun s => [s],
    args := exArgs,
    featW := 1 }

/-- The example sequence with end2end switched on. -/
def exSeqE2E : DocumentSequence :=
  { exSeq with args := { exArgs with end2end := true } }

/-- Pre-padding text row count a document contributes (cur_text.shape[0] at
line 85). -/
def textRows (S : DocumentSequence) (shufT : List ℕ → List ℕ) (d : Doc) : ℕ :=
  (text_to_matrix S.vocab S.args.seq_len (curText S shufT d.sents)).length

/-- Pre-padding image row count a document contributes (cur_images.shape[0]
at line 84). -/
def imageRows (S : DocumentSequence) (shufI : List ℕ → List ℕ) (d : Doc) : ℕ :=
  (images_to_matrix S.image_matrix S.image_idx2row
    (curImages S shufI d.images)).length

/-- Empty example document (zero images, zero sentences). -/
def exDoc2 : Doc := ⟨[], []⟩

/-- Three-document example sequence with two documents per batch, so the
final batch wraps around by one document. -/
def exSeq3 : DocumentSequence :=
  { exSeq with data_in := [exDoc, exDoc2, exDoc],
               args := { exArgs with docs_per_batch := 2 } }

/-- One document with three documents per batch: the wraparound slice
self.data_in[:2] holds a single document, so the final batch is short. -/
def exSeqB3 : DocumentSequence :=
  { exSeq with args := { exArgs with docs_per_batch := 3 } }

/-- The batch that getitem returns on exSeq3 at the final index. -/
def exBatch3 : Batch :=
  { texts := [[[5, 0], [1, 0]], [[5, 0], [1, 0]]],
    images := [[[7]], [[7]]],
    text_n := [1, 1],
    image_n := [1, 1] }

/-- True exactly when an Except value is a normal return. -/
def isOkE {e a : Type} : Except e a → Bool
  | .ok _ => true
  | .error _ => false

/-- The batch getitem returns on exSeq3 at index 0, whose second document
has zero images and zero sentences. -/
def exBatch0 : Batch :=
  { texts := [[[5, 0], [1, 0]], [[1, 0], [1, 0]]],
    images := [[[7]], [[0]]],
    text_n := [1, 0],
    image_n := [1, 0] }

/-- Example sequence whose single document has two images while
max_images_per_doc is one. -/
def exSeqOver : DocumentSequence :=
  { exSeq with data_in := [⟨[0, 1], [5]⟩] }

/-- Concrete plateau configuration for the witness: activation threshold
one, the rest arbitrary small values. -/
def cfgW : PlateauCfg :=
  { activation_val_loss := some 1, factor := 0, patience := 1,
    min_delta := 0, cooldown := 0, min_lr := 0 }

lemma ltOptInf_update (v p : ℚ) (b : Option ℚ) :
    (ltOptInf v (if ltOptInf p b then some p else b) = true) ↔
      (ltOptInf v b = true ∧ v < p) := by
  cases b with
  | none => simp [ltOptInf]
  | some x =>
    by_cases h : p < x
    · rw [if_pos (show ltOptInf p (some x) = true by simp [ltOptInf, h])]
      simp only [ltOptInf, decide_eq_true_eq]
      exact ⟨fun hv => ⟨lt_trans hv h, hv⟩, fun h2 => h2.2⟩
    · have hcond : (ltOptInf p (some x)) = false := by
        simp [ltOptInf, h]
      rw [if_neg (by simp [hcond])]
      simp only [ltOptInf, decide_eq_true_eq]
      exact ⟨fun hv => ⟨hv, lt_of_lt_of_le hv (not_lt.mp h)⟩, fun h2 => h2.1⟩

lemma ltOptInf_foldBest (v : ℚ) (pre : List ℚ) (b : Option ℚ) :
    ltOptInf v (foldBest b pre) = true ↔
      (ltOptInf v b = true ∧ ∀ p ∈ pre, v < p) := by
  induction pre generalizing b with
  | nil => simp [foldBest]
  | cons p pre ih =>
    have hstep : foldBest b (p :: pre) =
        foldBest (if ltOptInf p b then some p else b) pre := rfl
    rw [hstep, ih, ltOptInf_update, List.forall_mem_cons]
    tauto

lemma saveRunAux_getD (dir : ℕ) (ls : List ℚ) :
    ∀ (s : SaveState) (e k : ℕ), k < ls.length →
      (saveRunAux dir s e ls).2.getD k none =
        (if ltOptInf (ls.getD k 0) (foldBest s.best_val_loss (ls.take k)) then
          some (⟨true, dir, e + k, ls.getD k 0⟩, ⟨false, dir, e + k, ls.getD k 0⟩)
        else none) := by
  induction ls with
  | nil => intro s e k hk; simp at hk
  | cons l ls ih =>
    intro s e k hk
    cases k with
    | zero =>
      simp only [List.take_zero, foldBest, List.foldl_nil, List.getD_cons_zero,
        Nat.add_zero]
      have hrec0 : (saveRunAux dir s e (l :: ls)).2.getD 0 none =
          (save_on_epoch_end dir s e l).2 := rfl
      rw [hrec0]
      by_cases h : ltOptInf l s.best_val_loss
      · simp [save_on_epoch_end, h]
      · simp [save_on_epoch_end, h]
    | succ k =>
      have hk2 : k < ls.length := by simpa using hk
      have hbest : (save_on_epoch_end dir s e l).1.best_val_loss =
          (if ltOptInf l s.best_val_loss then some l else s.best_val_loss) := by
        by_cases h : ltOptInf l s.best_val_loss
        · simp [save_on_epoch_end, h]
        · simp [save_on_epoch_end, h]
      have hrec : (saveRunAux dir s e (l :: ls)).2.getD (k + 1) none =
          (saveRunAux dir (save_on_epoch_end dir s e l).1 (e + 1) ls).2.getD k none := rfl
      rw [hrec, ih _ (e + 1) k hk2, hbest]
      have htake : foldBest (if ltOptInf l s.best_val_loss then some l
          else s.best_val_loss) (ls.take k) =
          foldBest s.best_val_loss ((l :: ls).take (k + 1)) := rfl
      rw [htake]
      have he : e + 1 + k = e + (k + 1) := by omega
      rw [he]
      rfl

/-- Claim C5: over a run (best-seen loss initialized to np.inf at train
begin), an epoch-end call of SaveDocModels writes the two model files, with
paths embedding the epoch number and the validation loss, and updates the
recorded best checkpoint tuple, exactly when its validation loss is strictly
below every previously seen one; otherwise it leaves the state unchanged and
writes nothing. -/
theorem saveDocModels_saves_iff_improvement (dir : ℕ) (losses : List ℚ)
    (k : ℕ) (hk : k < losses.length) :
    ((saveRun dir losses).2.getD k none =
      (if ∀ p ∈ losses.take k, losses.getD k 0 < p then
        some (⟨true, dir, k, losses.getD k 0⟩, ⟨false, dir, k, losses.getD k 0⟩)
      else none)) ∧
    (∀ (s : SaveState) (e : ℕ) (v : ℚ), ¬ ltOptInf v s.best_val_loss →
      save_on_epoch_end dir s e v = (s, none)) ∧
    (∀ (s : SaveState) (e : ℕ) (v : ℚ), ltOptInf v s.best_val_loss →
      (save_on_epoch_end dir s e v).1.best_val_loss = some v ∧
      (save_on_epoch_end dir s e v).1.best_checkpoints_and_logs =
        some (⟨true, dir, e, v⟩, ⟨false, dir, e, v⟩, v, e)) := by
  refine ⟨?_, ?_, ?_⟩
  · have h0 := saveRunAux_getD dir losses save_on_train_begin 0 k hk
    have hiff : (ltOptInf (losses.getD k 0)
        (foldBest save_on_train_begin.best_val_loss (losses.take k)) = true) ↔
        (∀ p ∈ losses.take k, losses.getD k 0 < p) := by
      rw [ltOptInf_foldBest]
      simp [save_on_train_begin, ltOptInf]
    rw [saveRun, h0]
    by_cases h : ∀ p ∈ losses.take k, losses.getD k 0 < p
    · rw [if_pos (hiff.mpr h), if_pos h]; simp
    · rw [if_neg (fun hh => h (hiff.mp hh)), if_neg h]
  · intro s e v hv
    simp [save_on_epoch_end, hv]
  · intro s e v hv
    simp [save_on_epoch_end, hv]

/-- Witness for C5 on a concrete four-epoch run. -/
theorem saveDocModels_saves_iff_improvement_witness :
    (3 < ([3, 2, 3, 1] : List ℚ).length) ∧
    ((saveRun 0 [3, 2, 3, 1]).2.getD 3 none =
      (if ∀ p ∈ ([3, 2, 3, 1] : List ℚ).take 3,
          ([3, 2, 3, 1] : List ℚ).getD 3 0 < p then
        some (⟨true, 0, 3, ([3, 2, 3, 1] : List ℚ).getD 3 0⟩,
              ⟨false, 0, 3, ([3, 2, 3, 1] : List ℚ).getD 3 0⟩)
      else none)) :=
  ⟨by decide, (saveDocModels_saves_iff_improvement 0 [3, 2, 3, 1] 3 (by decide)).1⟩

/-- Claim C7: the warmup scheduler forces the learning rate to zero at train
begin; after k ≤ warmup_steps batch-begin calls the rate is exactly
k · (max_lr / warmup_steps) in exact arithmetic, hence max_lr after exactly
warmup_steps calls, and every later batch-begin call leaves both the rate
and the step counter unchanged. -/
theorem warmup_linear_then_hold (maxLr lr0 : ℚ) (w : ℕ) (hw : 0 < w) :
    (warmup_on_train_begin ⟨maxLr, w, 0, lr0⟩).lr = 0 ∧
    (∀ k, k ≤ w →
      warmup_on_batch_begin^[k] (warmup_on_train_begin ⟨maxLr, w, 0, lr0⟩) =
        ⟨maxLr, w, k, (k : ℚ) * (maxLr / (w : ℚ))⟩) ∧
    (warmup_on_batch_begin^[w]
      (warmup_on_train_begin ⟨maxLr, w, 0, lr0⟩)).lr = maxLr ∧
    (∀ k, w ≤ k →
      warmup_on_batch_begin^[k] (warmup_on_train_begin ⟨maxLr, w, 0, lr0⟩) =
        warmup_on_batch_begin^[w] (warmup_on_train_begin ⟨maxLr, w, 0, lr0⟩)) := by
  have hw0 : (w : ℚ) ≠ 0 := Nat.cast_ne_zero.mpr (Nat.pos_iff_ne_zero.mp hw)
  have hinit : warmup_on_train_begin ⟨maxLr, w, 0, lr0⟩ =
      (⟨maxLr, w, 0, 0⟩ : WarmupState) := rfl
  have main : ∀ k, k ≤ w →
      warmup_on_batch_begin^[k] (warmup_on_train_begin ⟨maxLr, w, 0, lr0⟩) =
        ⟨maxLr, w, k, (k : ℚ) * (maxLr / (w : ℚ))⟩ := by
    intro k
    induction k with
    | zero =>
      intro _
      rw [Function.iterate_zero_apply, hinit]
      simp
    | succ k ih =>
      intro hk1
      rw [Function.iterate_succ_apply', ih (by omega)]
      unfold warmup_on_batch_begin
      rw [if_neg (by simp only [not_le]; omega)]
      simp only [WarmupState.mk.injEq, true_and]
      push_cast
      field_simp
      ring
  have atw : warmup_on_batch_begin^[w]
      (warmup_on_train_begin ⟨maxLr, w, 0, lr0⟩) =
        (⟨maxLr, w, w, maxLr⟩ : WarmupState) := by
    rw [main w (le_refl w)]
    simp only [WarmupState.mk.injEq, true_and]
    rw [mul_comm]
    exact div_mul_cancel₀ maxLr hw0
  refine ⟨rfl, main, by rw [atw], ?_⟩
  intro k hk
  induction k, hk using Nat.le_induction with
  | base => rfl
  | succ k hk ih =>
    rw [Function.iterate_succ_apply', ih, atw]
    simp [warmup_on_batch_begin]

/-- Witness for C7 with max_lr 2, four warmup steps and six calls. -/
theorem warmup_linear_then_hold_witness :
    (0 < 4) ∧
    (warmup_on_train_begin ⟨2, 4, 0, 5⟩).lr = 0 ∧
    (∀ k, k ≤ 4 →
      warmup_on_batch_begin^[k] (warmup_on_train_begin ⟨2, 4, 0, 5⟩) =
        ⟨2, 4, k, (k : ℚ) * ((2 : ℚ) / ((4 : ℕ) : ℚ))⟩) ∧
    (warmup_on_batch_begin^[4] (warmup_on_train_begin ⟨2, 4, 0, 5⟩)).lr = 2 ∧
    (∀ k, 4 ≤ k →
      warmup_on_batch_begin^[k] (warmup_on_train_begin ⟨2, 4, 0, 5⟩) =
        warmup_on_batch_begin^[4] (warmup_on_train_begin ⟨2, 4, 0, 5⟩)) :=
  ⟨by decide, warmup_linear_then_hold 2 5 4 (by decide)⟩

/-- Claim C1 (the code contradicts it): with args.end2end set, __getitem__
on any batch index whose document slice is nonempty raises NameError at
line 66, because augment and args are unbound names inside __getitem__ (the
constructor stored augment under self.argument); no raw augmented image
tensors are ever produced and the call never returns normally. -/
theorem end2end_getitem_raises_nameError (S : DocumentSequence)
    (shufT shufI : List ℕ → List ℕ) (idx : ℕ)
    (he : S.args.end2end = true)
    (hne : batchDocs S.data_in S.args.docs_per_batch idx ≠ []) :
    getitem S shufT shufI idx = .error .nameError := by
  cases hd : batchDocs S.data_in S.args.docs_per_batch idx with
  | nil => exact absurd hd hne
  | cons d ds =>
    have hpd : processDoc S shufT shufI d = .error .nameError := by
      simp [processDoc, he]
    simp only [getitem, hd, List.isEmpty_cons, Bool.false_eq_true,
      if_false, processDocs, hpd]
    rfl

/-- Witness for C1: a one-document end2end sequence raises NameError on
batch index 0. -/
theorem end2end_getitem_raises_nameError_witness :
    exSeqE2E.args.end2end = true ∧
    batchDocs exSeqE2E.data_in exSeqE2E.args.docs_per_batch 0 ≠ [] ∧
    getitem exSeqE2E id id 0 = .error .nameError :=
  ⟨rfl, by with_unfolding_all decide,
   end2end_getitem_raises_nameError exSeqE2E id id 0 rfl
     (by with_unfolding_all decide)⟩

/-- Claim C8: the document collection is mutated only by the epoch shuffler.
The batch-selection statements of __getitem__ write only the local slice
object, whose final contents are the batch documents, while the shared
data_in cell is unchanged; on_epoch_end leaves data_in unchanged when
shuffle_docs is off, and otherwise replaces it by a permutation of itself,
preserving the multiset of documents (it returns nothing else). -/
theorem data_in_only_shuffler_mutates :
    (∀ (data : List Doc) (B idx : ℕ),
      (selectBatchRun data B idx).data_in = data ∧
      (selectBatchRun data B idx).cur_doc_b = batchDocs data B idx) ∧
    (∀ (S : DocumentSequence) (shufD : List Doc → List Doc),
      S.shuffle_docs = false → S.epochEnd shufD = S.data_in) ∧
    (∀ (S : DocumentSequence) (shufD : List Doc → List Doc),
      (∀ l : List Doc, (shufD l).Perm l) →
        (S.epochEnd shufD).Perm S.data_in) := by
  refine ⟨?_, ?_, ?_⟩
  · intro data B idx
    constructor
    · simp only [selectBatchRun, extendLocals, sliceLocals]
      split <;> rfl
    · simp only [selectBatchRun, extendLocals, sliceLocals, batchDocs]
      split <;> rfl
  · intro S shufD h
    simp [DocumentSequence.epochEnd, h]
  · intro S shufD h
    unfold DocumentSequence.epochEnd
    split
    · exact h S.data_in
    · exact List.Perm.refl _

/-- Witness for C8: epoch end with a reversing permutation on the example
sequence, and the batch-selection frame fact at concrete arguments. -/
theorem data_in_only_shuffler_mutates_witness :
    ((selectBatchRun [exDoc] 1 0).data_in = [exDoc] ∧
      (selectBatchRun [exDoc] 1 0).cur_doc_b = batchDocs [exDoc] 1 0) ∧
    (exSeq.epochEnd List.reverse).Perm exSeq.data_in :=
  ⟨data_in_only_shuffler_mutates.1 [exDoc] 1 0,
   data_in_only_shuffler_mutates.2.2 exSeq List.reverse
     (fun l => List.reverse_perm l)⟩

lemma numBatches_eq_ceilDiv (N B : ℕ) (hB : 0 < B) :
    numBatches N B = (N + B - 1) / B := by
  unfold numBatches
  have hBq : (0 : ℚ) < (B : ℚ) := by exact_mod_cast hB
  rcases Nat.eq_zero_or_pos N with hN | hN
  · subst hN
    simp
    exact (Nat.div_eq_of_lt (by omega)).symm
  · set q := (N + B - 1) / B with hq
    have hmod := Nat.div_add_mod (N + B - 1) B
    have hr : (N + B - 1) % B < B := Nat.mod_lt _ hB
    have hub : N ≤ B * q := by
      set r := (N + B - 1) % B with hrdef
      generalize hP : B * q = P at *
      omega
    have hlb : B * q < N + B := by
      set r := (N + B - 1) % B with hrdef
      generalize hP : B * q = P at *
      omega
    have hceil : ⌈(N : ℚ) / (B : ℚ)⌉ = (q : ℤ) := by
      rw [Int.ceil_eq_iff]
      constructor
      · rw [lt_div_iff₀ hBq]
        have hc : ((B : ℚ)) * q < N + B := by exact_mod_cast hlb
        push_cast
        linarith
      · rw [div_le_iff₀ hBq]
        have hc : (N : ℚ) ≤ B * q := by exact_mod_cast hub
        push_cast
        linarith
    rw [hceil]
    simp

lemma numBatches_pos (N B : ℕ) (hB : 0 < B) (hN : 0 < N) :
    0 < numBatches N B := by
  rw [numBatches_eq_ceilDiv N B hB]
  have h1 : B ≤ N + B - 1 := by omega
  have h2 := Nat.div_le_div_right (c := B) h1
  rw [Nat.div_self hB] at h2
  omega

lemma numBatches_mul_bounds (N B : ℕ) (hB : 0 < B) (hN : 0 < N) :
    N ≤ numBatches N B * B ∧ (numBatches N B - 1) * B < N := by
  have hq0 := numBatches_pos N B hB hN
  rw [numBatches_eq_ceilDiv N B hB] at hq0 ⊢
  set q := (N + B - 1) / B with hq
  have hmod := Nat.div_add_mod (N + B - 1) B
  have hr : (N + B - 1) % B < B := Nat.mod_lt _ hB
  obtain ⟨q', hq'⟩ : ∃ q', q = q' + 1 := ⟨q - 1, by omega⟩
  rw [hq']
  simp only [Nat.add_sub_cancel]
  have e1 : (q' + 1) * B = q' * B + B := by ring
  rw [e1]
  rw [← hq, hq'] at hmod
  have e2 : B * (q' + 1) = q' * B + B := by ring
  rw [e2] at hmod
  set r := (N + B - 1) % B with hrdef
  generalize hP : q' * B = P at *
  omega

lemma batchDocs_length (data : List Doc) (B idx : ℕ) (hB : 0 < B)
    (h2 : B ≤ 2 * data.length) (hidx : idx < numBatches data.length B) :
    (batchDocs data B idx).length = B := by
  have hNpos : 0 < data.length := by
    rcases Nat.eq_zero_or_pos data.length with h | h
    · rw [h] at hidx
      simp [numBatches] at hidx
    · exact h
  obtain ⟨hBd, hA⟩ := numBatches_mul_bounds data.length B hB hNpos
  obtain ⟨q', hq'⟩ : ∃ q', numBatches data.length B = q' + 1 :=
    ⟨numBatches data.length B - 1, by
      have := numBatches_pos data.length B hB hNpos
      omega⟩
  rw [hq'] at hidx hA hBd
  have hA' : q' * B < data.length := by simpa using hA
  have hBd' : data.length ≤ q' * B + B := by
    calc data.length ≤ (q' + 1) * B := hBd
    _ = q' * B + B := by ring
  simp only [batchDocs, hq']
  by_cases hc : (idx : ℤ) = ((q' + 1 : ℕ) : ℤ) - 1
  · have hidx2 : idx = q' := by
      push_cast at hc
      omega
    subst hidx2
    rw [if_pos hc]
    simp only [List.length_append, List.length_take, List.length_drop]
    have hr1 : data.length - idx * B ≤ B := by
      generalize hP : idx * B = P at *
      omega
    have hr2 : 0 < data.length - idx * B := by
      generalize hP : idx * B = P at *
      omega
    rw [min_eq_right hr1]
    have hBr : B - (data.length - idx * B) ≤ data.length := by
      rcases Nat.eq_zero_or_pos idx with h0 | h0
      · rw [h0]
        simp
        omega
      · have hP2 : B ≤ idx * B := Nat.le_mul_of_pos_left B h0
        generalize hP : idx * B = P at *
        omega
    rw [min_eq_left hBr]
    generalize hP : idx * B = P at *
    omega
  · rw [if_neg hc]
    have hlt : idx < q' := by
      push_cast at hc
      omega
    have hmul : (idx + 1) * B ≤ q' * B := Nat.mul_le_mul_right B (by omega)
    have hmul2 : (idx + 1) * B = idx * B + B := by ring
    rw [hmul2] at hmul
    rw [List.length_take, List.length_drop]
    generalize hP : q' * B = P at *
    generalize hQ : idx * B = Q at *
    omega

lemma numBatches_of_mod_ne (N B : ℕ) (hB : 0 < B) (hmod : N % B ≠ 0) :
    numBatches N B = N / B + 1 := by
  have hdm := Nat.div_add_mod N B
  have hrB : N % B < B := Nat.mod_lt _ hB
  rw [numBatches_eq_ceilDiv _ _ hB]
  apply Nat.div_eq_of_lt_le
  · have e : (N / B + 1) * B = B * (N / B) + B := by ring
    rw [e]
    generalize hP : B * (N / B) = P at *
    generalize hR : N % B = R at *
    omega
  · have e : (N / B + 1 + 1) * B = B * (N / B) + B + B := by ring
    rw [e]
    generalize hP : B * (N / B) = P at *
    generalize hR : N % B = R at *
    omega

lemma batchDocs_final (data : List Doc) (B : ℕ) (hB : 0 < B)
    (hmod : data.length % B ≠ 0) :
    batchDocs data B (numBatches data.length B - 1) =
      data.drop (data.length - data.length % B) ++
        data.take (B - data.length % B) := by
  have hq := numBatches_of_mod_ne data.length B hB hmod
  have hdm := Nat.div_add_mod data.length B
  have hrB : data.length % B < B := Nat.mod_lt _ hB
  have hidx : numBatches data.length B - 1 = data.length / B := by
    rw [hq]
    simp
  have hPB : data.length / B * B = data.length - data.length % B := by
    have e : data.length / B * B = B * (data.length / B) := Nat.mul_comm _ _
    generalize hP : B * (data.length / B) = P at *
    omega
  have hcond : ((numBatches data.length B - 1 : ℕ) : ℤ) =
      (numBatches data.length B : ℤ) - 1 := by
    rw [hq]
    simp
  have hdroplen : (data.drop (data.length - data.length % B)).length =
      data.length % B := by
    rw [List.length_drop]
    have := Nat.mod_le data.length B
    omega
  simp only [batchDocs]
  rw [if_pos hcond, hidx, hPB]
  have htake : (data.drop (data.length - data.length % B)).take B =
      data.drop (data.length - data.length % B) := by
    apply List.take_of_length_le
    rw [hdroplen]
    omega
  rw [htake, hdroplen]

lemma processDocs_cons (f : Doc → Except PyErr DocOut) (d : Doc)
    (ds : List Doc) :
    processDocs f (d :: ds) =
      Except.bind (f d) (fun o => Except.bind (processDocs f ds)
        (fun os => Except.ok (o :: os))) := rfl

lemma processDocs_eq_ok_map (f : Doc → Except PyErr DocOut)
    (g : Doc → DocOut) (l : List Doc) (h : ∀ d ∈ l, f d = .ok (g d)) :
    processDocs f l = .ok (l.map g) := by
  induction l with
  | nil => rfl
  | cons d ds ih =>
    have hd : f d = .ok (g d) := h d (by simp)
    have hds := ih (fun x hx => h x (by simp [hx]))
    rw [processDocs_cons, hd, hds]
    rfl

lemma processDocs_ok_mem (f : Doc → Except PyErr DocOut) (l : List Doc)
    (os : List DocOut) (h : processDocs f l = .ok os) :
    ∀ d ∈ l, ∃ o, f d = .ok o := by
  induction l generalizing os with
  | nil => simp
  | cons x xs ih =>
    intro d hd
    rw [processDocs_cons] at h
    cases hfx : f x with
    | error e =>
      rw [hfx] at h
      exact absurd h (by simp [Except.bind])
    | ok o =>
      rw [hfx] at h
      rcases List.mem_cons.mp hd with rfl | hmem
      · exact ⟨o, hfx⟩
      · cases hrec : processDocs f xs with
        | error e =>
          rw [hrec] at h
          exact absurd h (by simp [Except.bind])
        | ok os2 => exact ih os2 hrec d hmem

lemma processDocs_ne_ok (f : Doc → Except PyErr DocOut) (l : List Doc)
    (d : Doc) (hd : d ∈ l) (he : ∀ o, f d ≠ .ok o) :
    ∀ os, processDocs f l ≠ .ok os := by
  intro os h
  obtain ⟨o, ho⟩ := processDocs_ok_mem f l os h d hd
  exact he o ho

lemma processDoc_eq_ok (S : DocumentSequence) (shufT shufI : List ℕ → List ℕ)
    (d : Doc) (hE : S.args.end2end = false) (hq : S.args.seq_len ≠ 0)
    (hTi : imageRows S shufI d ≤ targetI S)
    (hTt : textRows S shufT d ≤ targetT S) :
    processDoc S shufT shufI d = .ok (processDocOk S shufT shufI d) := by
  unfold imageRows at hTi
  unfold textRows at hTt
  unfold processDoc processDocOk
  rw [hE]
  simp only [Bool.false_eq_true, if_false]
  rw [if_neg (not_lt.mpr hTi), if_neg (not_lt.mpr hTt), if_neg hq]

lemma processDoc_ok_inv (S : DocumentSequence) (shufT shufI : List ℕ → List ℕ)
    (d : Doc) (o : DocOut) (h : processDoc S shufT shufI d = .ok o) :
    S.args.end2end = false ∧ S.args.seq_len ≠ 0 ∧
    imageRows S shufI d ≤ targetI S ∧ textRows S shufT d ≤ targetT S ∧
    o = processDocOk S shufT shufI d := by
  unfold processDoc at h
  by_cases hE : S.args.end2end = true
  · rw [hE] at h
    simp at h
  · have hE2 : S.args.end2end = false := by simpa using hE
    rw [hE2] at h
    simp only [Bool.false_eq_true, if_false] at h
    by_cases h1 : targetI S <
        (images_to_matrix S.image_matrix S.image_idx2row
          (curImages S shufI d.images)).length
    · rw [if_pos h1] at h
      simp at h
    · rw [if_neg h1] at h
      by_cases h2 : targetT S <
          (text_to_matrix S.vocab S.args.seq_len
            (curText S shufT d.sents)).length
      · rw [if_pos h2] at h
        simp at h
      · rw [if_neg h2] at h
        by_cases h3 : S.args.seq_len = 0
        · rw [if_pos h3] at h
          simp at h
        · rw [if_neg h3] at h
          refine ⟨hE2, h3, not_lt.mp h1, not_lt.mp h2, ?_⟩
          have := Except.ok.inj h
          rw [← this]
          rfl

lemma getitem_eq_ok (S : DocumentSequence) (shufT shufI : List ℕ → List ℕ)
    (idx : ℕ)
    (hne : batchDocs S.data_in S.args.docs_per_batch idx ≠ [])
    (hE : S.args.end2end = false) (hq : S.args.seq_len ≠ 0)
    (hall : ∀ d ∈ batchDocs S.data_in S.args.docs_per_batch idx,
      imageRows S shufI d ≤ targetI S ∧ textRows S shufT d ≤ targetT S) :
    getitem S shufT shufI idx =
      .ok (stackBatch ((batchDocs S.data_in S.args.docs_per_batch idx).map
        (processDocOk S shufT shufI))) := by
  unfold getitem
  rw [if_neg (by simpa [List.isEmpty_iff] using hne)]
  rw [processDocs_eq_ok_map _ (processDocOk S shufT shufI) _
    (fun d hd => processDoc_eq_ok S shufT shufI d hE hq (hall d hd).1
      (hall d hd).2)]
  rfl

lemma getitem_ok_inv (S : DocumentSequence) (shufT shufI : List ℕ → List ℕ)
    (idx : ℕ) (b : Batch) (h : getitem S shufT shufI idx = .ok b) :
    S.args.end2end = false ∧ S.args.seq_len ≠ 0 ∧
    batchDocs S.data_in S.args.docs_per_batch idx ≠ [] ∧
    (∀ d ∈ batchDocs S.data_in S.args.docs_per_batch idx,
      imageRows S shufI d ≤ targetI S ∧ textRows S shufT d ≤ targetT S) ∧
    b = stackBatch ((batchDocs S.data_in S.args.docs_per_batch idx).map
      (processDocOk S shufT shufI)) := by
  unfold getitem at h
  by_cases hemp : (batchDocs S.data_in S.args.docs_per_batch idx).isEmpty
  · rw [if_pos hemp] at h
    simp [Except.map] at h
  · rw [if_neg hemp] at h
    have hne : batchDocs S.data_in S.args.docs_per_batch idx ≠ [] := by
      simpa [List.isEmpty_iff] using hemp
    cases hp : processDocs (processDoc S shufT shufI)
        (batchDocs S.data_in S.args.docs_per_batch idx) with
    | error e =>
      rw [hp] at h
      simp [Except.map] at h
    | ok os =>
      rw [hp] at h
      have hb : b = stackBatch os := by
        have := Except.ok.inj h
        rw [← this]
      have hmem := processDocs_ok_mem _ _ _ hp
      have hper : ∀ d ∈ batchDocs S.data_in S.args.docs_per_batch idx,
          processDoc S shufT shufI d = .ok (processDocOk S shufT shufI d) := by
        intro d hd
        obtain ⟨o, ho⟩ := hmem d hd
        obtain ⟨-, -, -, -, rfl⟩ := processDoc_ok_inv S shufT shufI d o ho
        exact ho
      obtain ⟨d0, hd0⟩ := List.exists_mem_of_ne_nil _ hne
      obtain ⟨o0, ho0⟩ := hmem d0 hd0
      obtain ⟨hE, hq, -, -, -⟩ := processDoc_ok_inv S shufT shufI d0 o0 ho0
      have hos : os = (batchDocs S.data_in S.args.docs_per_batch idx).map
          (processDocOk S shufT shufI) := by
        have h2 := processDocs_eq_ok_map _ (processDocOk S shufT shufI) _ hper
        rw [hp] at h2
        exact Except.ok.inj h2
      refine ⟨hE, hq, hne, ?_, by rw [hb, hos]⟩
      intro d hd
      obtain ⟨o, ho⟩ := hmem d hd
      obtain ⟨-, -, hTi, hTt, -⟩ := processDoc_ok_inv S shufT shufI d o ho
      exact ⟨hTi, hTt⟩

/-- Claim C2 (amended): provided the batch size B is positive and at most
twice the number N of documents (so the wraparound fill B - N mod B never
exceeds N), the batch count equals the ceiling of N / B, every in-range
batch holds exactly B documents, the four arrays of any normally returned
batch share first dimension B, and when N mod B is nonzero the final batch
is the trailing N mod B documents followed by the first B - N mod B
documents of the collection. -/
theorem batch_len_shape_wraparound (S : DocumentSequence)
    (shufT shufI : List ℕ → List ℕ) (idx : ℕ)
    (hB : 0 < S.args.docs_per_batch)
    (h2 : S.args.docs_per_batch ≤ 2 * S.data_in.length)
    (hidx : idx < numBatches S.data_in.length S.args.docs_per_batch) :
    numBatches S.data_in.length S.args.docs_per_batch =
      (S.data_in.length + S.args.docs_per_batch - 1) /
        S.args.docs_per_batch ∧
    (batchDocs S.data_in S.args.docs_per_batch idx).length =
      S.args.docs_per_batch ∧
    (∀ b : Batch, getitem S shufT shufI idx = .ok b →
      b.texts.length = S.args.docs_per_batch ∧
      b.images.length = S.args.docs_per_batch ∧
      b.text_n.length = S.args.docs_per_batch ∧
      b.image_n.length = S.args.docs_per_batch) ∧
    (S.data_in.length % S.args.docs_per_batch ≠ 0 →
      batchDocs S.data_in S.args.docs_per_batch
          (numBatches S.data_in.length S.args.docs_per_batch - 1) =
        S.data_in.drop
            (S.data_in.length - S.data_in.length % S.args.docs_per_batch) ++
          S.data_in.take
            (S.args.docs_per_batch -
              S.data_in.length % S.args.docs_per_batch)) := by
  refine ⟨numBatches_eq_ceilDiv _ _ hB,
    batchDocs_length S.data_in _ idx hB h2 hidx, ?_,
    fun hmod => batchDocs_final S.data_in _ hB hmod⟩
  intro b hb
  obtain ⟨-, -, -, -, rfl⟩ := getitem_ok_inv S shufT shufI idx b hb
  have hlen := batchDocs_length S.data_in _ idx hB h2 hidx
  simp [stackBatch, hlen]

/-- Counterexample to C2 as frozen: a collection of one document with
docs_per_batch three.  Batch index 0 is in range (the batch count is one),
yet the returned arrays have first dimension two, because the wraparound
slice can reuse at most the whole one-document collection. -/
theorem batch_first_dim_counterexample :
    0 < numBatches exSeqB3.data_in.length exSeqB3.args.docs_per_batch ∧
    (getitem exSeqB3 id id 0).map (fun b => b.texts.length) = .ok 2 ∧
    exSeqB3.args.docs_per_batch = 3 :=
  ⟨by with_unfolding_all decide, by with_unfolding_all decide, rfl⟩

/-- Witness for C2 on the three-document, batch-size-two example at the
final batch index. -/
theorem batch_len_shape_wraparound_witness :
    (0 < exSeq3.args.docs_per_batch ∧
      exSeq3.args.docs_per_batch ≤ 2 * exSeq3.data_in.length ∧
      1 < numBatches exSeq3.data_in.length exSeq3.args.docs_per_batch) ∧
    (batchDocs exSeq3.data_in exSeq3.args.docs_per_batch 1).length =
      exSeq3.args.docs_per_batch ∧
    (exSeq3.data_in.length % exSeq3.args.docs_per_batch ≠ 0 →
      batchDocs exSeq3.data_in exSeq3.args.docs_per_batch
          (numBatches exSeq3.data_in.length exSeq3.args.docs_per_batch - 1) =
        exSeq3.data_in.drop
            (exSeq3.data_in.length -
              exSeq3.data_in.length % exSeq3.args.docs_per_batch) ++
          exSeq3.data_in.take
            (exSeq3.args.docs_per_batch -
              exSeq3.data_in.length % exSeq3.args.docs_per_batch)) :=
  ⟨⟨by decide, by decide, by with_unfolding_all decide⟩,
   (batch_len_shape_wraparound exSeq3 id id 1 (by decide) (by decide)
     (by with_unfolding_all decide)).2.1,
   (batch_len_shape_wraparound exSeq3 id id 1 (by decide) (by decide)
     (by with_unfolding_all decide)).2.2.2⟩

lemma mem_zip_map_self {α β : Type} (l : List α) (f : α → β) (p : α × β)
    (hp : p ∈ l.zip (l.map f)) : p.2 = f p.1 ∧ p.1 ∈ l := by
  induction l with
  | nil => simp at hp
  | cons x xs ih =>
    rw [List.map_cons, List.zip_cons_cons] at hp
    rcases List.mem_cons.mp hp with rfl | h
    · exact ⟨rfl, by simp⟩
    · obtain ⟨h1, h2⟩ := ih h
      exact ⟨h1, by simp [h2]⟩

lemma processDocOk_text_length (S : DocumentSequence)
    (shufT shufI : List ℕ → List ℕ) (d : Doc)
    (h : textRows S shufT d ≤ targetT S) :
    (processDocOk S shufT shufI d).text.length = targetT S := by
  unfold textRows at h
  unfold processDocOk
  rw [List.length_append, List.length_replicate]
  omega

lemma processDocOk_image_length (S : DocumentSequence)
    (shufT shufI : List ℕ → List ℕ) (d : Doc)
    (h : imageRows S shufI d ≤ targetI S) :
    (processDocOk S shufT shufI d).image.length = targetI S := by
  unfold imageRows at h
  unfold processDocOk
  rw [List.length_append, List.length_replicate]
  omega

lemma processDocOk_text_drop (S : DocumentSequence)
    (shufT shufI : List ℕ → List ℕ) (d : Doc) :
    (processDocOk S shufT shufI d).text.drop
        (processDocOk S shufT shufI d).text_n =
      List.replicate (targetT S - textRows S shufT d)
        (unkPadRow S.args.seq_len) := by
  unfold processDocOk textRows
  exact List.drop_left _ _

lemma processDocOk_image_drop (S : DocumentSequence)
    (shufT shufI : List ℕ → List ℕ) (d : Doc) :
    (processDocOk S shufT shufI d).image.drop
        (processDocOk S shufT shufI d).image_n =
      List.replicate (targetI S - imageRows S shufI d)
        (List.replicate S.featW 0) := by
  unfold processDocOk imageRows
  exact List.drop_left _ _

lemma stackBatch_text_n (S : DocumentSequence)
    (shufT shufI : List ℕ → List ℕ) (docs : List Doc) :
    (stackBatch (docs.map (processDocOk S shufT shufI))).text_n =
      docs.map (fun d => textRows S shufT d) := by
  show List.map DocOut.text_n (List.map (processDocOk S shufT shufI) docs) = _
  rw [List.map_map]
  rfl

lemma stackBatch_image_n (S : DocumentSequence)
    (shufT shufI : List ℕ → List ℕ) (docs : List Doc) :
    (stackBatch (docs.map (processDocOk S shufT shufI))).image_n =
      docs.map (fun d => imageRows S shufI d) := by
  show List.map DocOut.image_n (List.map (processDocOk S shufT shufI) docs) = _
  rw [List.map_map]
  rfl

lemma stackBatch_texts (S : DocumentSequence)
    (shufT shufI : List ℕ → List ℕ) (docs : List Doc) :
    (stackBatch (docs.map (processDocOk S shufT shufI))).texts =
      docs.map (fun d => (processDocOk S shufT shufI d).text) := by
  show List.map DocOut.text (List.map (processDocOk S shufT shufI) docs) = _
  rw [List.map_map]
  rfl

lemma stackBatch_images (S : DocumentSequence)
    (shufT shufI : List ℕ → List ℕ) (docs : List Doc) :
    (stackBatch (docs.map (processDocOk S shufT shufI))).images =
      docs.map (fun d => (processDocOk S shufT shufI d).image) := by
  show List.map DocOut.image (List.map (processDocOk S shufT shufI) docs) = _
  rw [List.map_map]
  rfl

/-- Claim C4: in every normally returned batch, each count-vector entry
equals its document's true pre-padding row count, those counts are at most
the padding target of the modality (the subsample count when subsampling is
configured, the configured maximum otherwise), and every padded slab has
exactly that target as its second dimension. -/
theorem counts_and_padded_dims (S : DocumentSequence)
    (shufT shufI : List ℕ → List ℕ) (idx : ℕ) (b : Batch)
    (hok : getitem S shufT shufI idx = .ok b) :
    (∀ p ∈ (batchDocs S.data_in S.args.docs_per_batch idx).zip b.text_n,
      p.2 = textRows S shufT p.1 ∧ p.2 ≤ targetT S) ∧
    (∀ p ∈ (batchDocs S.data_in S.args.docs_per_batch idx).zip b.image_n,
      p.2 = imageRows S shufI p.1 ∧ p.2 ≤ targetI S) ∧
    (∀ t ∈ b.texts, t.length = targetT S) ∧
    (∀ m ∈ b.images, m.length = targetI S) := by
  obtain ⟨hE, hq, hne, hall, rfl⟩ := getitem_ok_inv S shufT shufI idx b hok
  refine ⟨?_, ?_, ?_, ?_⟩
  · intro p hp
    rw [stackBatch_text_n] at hp
    obtain ⟨h1, h2⟩ := mem_zip_map_self _ _ p hp
    exact ⟨h1, h1 ▸ (hall p.1 h2).2⟩
  · intro p hp
    rw [stackBatch_image_n] at hp
    obtain ⟨h1, h2⟩ := mem_zip_map_self _ _ p hp
    exact ⟨h1, h1 ▸ (hall p.1 h2).1⟩
  · intro t ht
    rw [stackBatch_texts] at ht
    obtain ⟨d, hd, rfl⟩ := List.mem_map.mp ht
    exact processDocOk_text_length S shufT shufI d (hall d hd).2
  · intro m hm
    rw [stackBatch_images] at hm
    obtain ⟨d, hd, rfl⟩ := List.mem_map.mp hm
    exact processDocOk_image_length S shufT shufI d (hall d hd).1

lemma processDocOk_text_n (S : DocumentSequence)
    (shufT shufI : List ℕ → List ℕ) (d : Doc) :
    (processDocOk S shufT shufI d).text_n = textRows S shufT d := rfl

lemma processDocOk_image_n (S : DocumentSequence)
    (shufT shufI : List ℕ → List ℕ) (d : Doc) :
    (processDocOk S shufT shufI d).image_n = imageRows S shufI d := rfl

lemma mem_zip_map_map {α β γ : Type} (l : List α) (f : α → β) (g : α → γ)
    (p : β × γ) (hp : p ∈ (l.map f).zip (l.map g)) :
    ∃ a ∈ l, p = (f a, g a) := by
  induction l with
  | nil => simp at hp
  | cons x xs ih =>
    rw [List.map_cons, List.map_cons, List.zip_cons_cons] at hp
    rcases List.mem_cons.mp hp with rfl | h
    · exact ⟨x, by simp, rfl⟩
    · obtain ⟨a, ha, hpa⟩ := ih h
      exact ⟨a, by simp [ha], hpa⟩

/-- Claim C3: in every normally returned batch, the rows appended as text
padding are zero rows of width seq_len whose first column holds the
reserved unknown-token index 1, and the rows appended as image padding are
entirely zero. -/
theorem padding_rows_unk_and_zero (S : DocumentSequence)
    (shufT shufI : List ℕ → List ℕ) (idx : ℕ) (b : Batch)
    (hok : getitem S shufT shufI idx = .ok b) :
    (∀ p ∈ b.texts.zip b.text_n,
      p.1.drop p.2 = List.replicate (targetT S - p.2)
        (unkPadRow S.args.seq_len)) ∧
    (∀ p ∈ b.images.zip b.image_n,
      p.1.drop p.2 = List.replicate (targetI S - p.2)
        (List.replicate S.featW 0)) := by
  obtain ⟨hE, hq, hne, hall, rfl⟩ := getitem_ok_inv S shufT shufI idx b hok
  constructor
  · intro p hp
    rw [stackBatch_texts, stackBatch_text_n] at hp
    obtain ⟨d, hd, rfl⟩ := mem_zip_map_map _ _ _ p hp
    have h1 := processDocOk_text_drop S shufT shufI d
    rw [processDocOk_text_n] at h1
    exact h1
  · intro p hp
    rw [stackBatch_images, stackBatch_image_n] at hp
    obtain ⟨d, hd, rfl⟩ := mem_zip_map_map _ _ _ p hp
    have h1 := processDocOk_image_drop S shufT shufI d
    rw [processDocOk_image_n] at h1
    exact h1

lemma exSeq3_getitem : getitem exSeq3 id id 1 = .ok exBatch3 := by
  with_unfolding_all decide

/-- Witness for C3 at a concrete padded document of the example batch. -/
theorem padding_rows_unk_and_zero_witness :
    ([[5, 0], [1, 0]] : List (List ℕ)).drop 1 =
      List.replicate (targetT exSeq3 - 1) (unkPadRow exSeq3.args.seq_len) ∧
    ([[(7 : ℚ)]] : List (List ℚ)).drop 1 =
      List.replicate (targetI exSeq3 - 1) (List.replicate exSeq3.featW 0) :=
  ⟨(padding_rows_unk_and_zero exSeq3 id id 1 exBatch3 exSeq3_getitem).1
      ([[5, 0], [1, 0]], 1) (by decide),
   (padding_rows_unk_and_zero exSeq3 id id 1 exBatch3 exSeq3_getitem).2
      ([[(7 : ℚ)]], 1) (by with_unfolding_all decide)⟩

/-- Witness for C4 at a concrete document of the example batch. -/
theorem counts_and_padded_dims_witness :
    ((1 : ℕ) = textRows exSeq3 id exDoc ∧ 1 ≤ targetT exSeq3) ∧
    ((1 : ℕ) = imageRows exSeq3 id exDoc ∧ 1 ≤ targetI exSeq3) ∧
    ([[5, 0], [1, 0]] : List (List ℕ)).length = targetT exSeq3 ∧
    ([[(7 : ℚ)]] : List (List ℚ)).length = targetI exSeq3 :=
  ⟨(counts_and_padded_dims exSeq3 id id 1 exBatch3 exSeq3_getitem).1
      (exDoc, 1) (by with_unfolding_all decide),
   (counts_and_padded_dims exSeq3 id id 1 exBatch3 exSeq3_getitem).2.1
      (exDoc, 1) (by with_unfolding_all decide),
   (counts_and_padded_dims exSeq3 id id 1 exBatch3 exSeq3_getitem).2.2.1
      [[5, 0], [1, 0]] (by decide),
   (counts_and_padded_dims exSeq3 id id 1 exBatch3 exSeq3_getitem).2.2.2
      [[(7 : ℚ)]] (by with_unfolding_all decide)⟩

lemma curImages_nil (S : DocumentSequence) (shufI : List ℕ → List ℕ)
    (hlenI : ∀ l, (shufI l).length = l.length) :
    curImages S shufI [] = [] := by
  have hs : shufI [] = [] := List.length_eq_zero.mp (by rw [hlenI]; rfl)
  unfold curImages
  split_ifs <;> simp_all [hs]

lemma curText_nil (S : DocumentSequence) (shufT : List ℕ → List ℕ)
    (hlenT : ∀ l, (shufT l).length = l.length) :
    curText S shufT [] = [] := by
  have hs : shufT [] = [] := List.length_eq_zero.mp (by rw [hlenT]; rfl)
  unfold curText
  split_ifs <;> simp_all [hs]

lemma imageRows_nil (S : DocumentSequence) (shufI : List ℕ → List ℕ)
    (hlenI : ∀ l, (shufI l).length = l.length) (d : Doc)
    (hd : d.images = []) : imageRows S shufI d = 0 := by
  unfold imageRows
  rw [hd, curImages_nil S shufI hlenI]
  rfl

lemma textRows_nil (S : DocumentSequence) (shufT : List ℕ → List ℕ)
    (hlenT : ∀ l, (shufT l).length = l.length) (d : Doc)
    (hd : d.sents = []) : textRows S shufT d = 0 := by
  unfold textRows
  rw [hd, curText_nil S shufT hlenT]
  rfl

lemma processDocOk_image_all_pad (S : DocumentSequence)
    (shufT shufI : List ℕ → List ℕ) (d : Doc)
    (hlenI : ∀ l, (shufI l).length = l.length) (hd : d.images = []) :
    (processDocOk S shufT shufI d).image =
      List.replicate (targetI S) (List.replicate S.featW 0) := by
  unfold processDocOk
  rw [hd, curImages_nil S shufI hlenI]
  simp [images_to_matrix]

lemma processDocOk_text_all_pad (S : DocumentSequence)
    (shufT shufI : List ℕ → List ℕ) (d : Doc)
    (hlenT : ∀ l, (shufT l).length = l.length) (hd : d.sents = []) :
    (processDocOk S shufT shufI d).text =
      List.replicate (targetT S) (unkPadRow S.args.seq_len) := by
  unfold processDocOk
  rw [hd, curText_nil S shufT hlenT]
  simp [text_to_matrix]

lemma mem_zip_zip_map {α β γ : Type} (l : List α) (f : α → β) (g : α → γ)
    (p : α × β × γ) (hp : p ∈ l.zip ((l.map f).zip (l.map g))) :
    p.1 ∈ l ∧ p.2 = (f p.1, g p.1) := by
  induction l with
  | nil => simp at hp
  | cons x xs ih =>
    rw [List.map_cons, List.map_cons, List.zip_cons_cons,
      List.zip_cons_cons] at hp
    rcases List.mem_cons.mp hp with rfl | h
    · exact ⟨by simp, rfl⟩
    · obtain ⟨h1, h2⟩ := ih h
      exact ⟨by simp [h1], h2⟩

/-- Claim C9: in non-end-to-end mode with a positive seq_len, when every
document of the selected nonempty batch fits its padding targets (as every
zero-row document does), __getitem__ returns normally, and any document with
zero images (resp. zero sentences) contributes a count of zero and a slab
that is entirely padding: exactly targetI rows of featW zeros (resp. exactly
targetT unknown-token rows of width seq_len). -/
theorem zero_row_docs_padded (S : DocumentSequence)
    (shufT shufI : List ℕ → List ℕ) (idx : ℕ)
    (hE : S.args.end2end = false) (hq : S.args.seq_len ≠ 0)
    (hlenT : ∀ l, (shufT l).length = l.length)
    (hlenI : ∀ l, (shufI l).length = l.length)
    (hne : batchDocs S.data_in S.args.docs_per_batch idx ≠ [])
    (hall : ∀ d ∈ batchDocs S.data_in S.args.docs_per_batch idx,
      imageRows S shufI d ≤ targetI S ∧ textRows S shufT d ≤ targetT S) :
    isOkE (getitem S shufT shufI idx) = true ∧
    (∀ b, getitem S shufT shufI idx = .ok b →
      (∀ p ∈ (batchDocs S.data_in S.args.docs_per_batch idx).zip
          (b.images.zip b.image_n),
        p.1.images = [] → p.2.2 = 0 ∧
          p.2.1 = List.replicate (targetI S) (List.replicate S.featW 0)) ∧
      (∀ p ∈ (batchDocs S.data_in S.args.docs_per_batch idx).zip
          (b.texts.zip b.text_n),
        p.1.sents = [] → p.2.2 = 0 ∧
          p.2.1 = List.replicate (targetT S) (unkPadRow S.args.seq_len))) := by
  constructor
  · rw [getitem_eq_ok S shufT shufI idx hne hE hq hall]
    rfl
  · intro b hb
    obtain ⟨-, -, -, -, rfl⟩ := getitem_ok_inv S shufT shufI idx b hb
    constructor
    · intro p hp hpi
      rw [stackBatch_images, stackBatch_image_n] at hp
      obtain ⟨h1, h2⟩ := mem_zip_zip_map _ _ _ p hp
      rw [h2]
      exact ⟨imageRows_nil S shufI hlenI p.1 hpi,
        processDocOk_image_all_pad S shufT shufI p.1 hlenI hpi⟩
    · intro p hp hps
      rw [stackBatch_texts, stackBatch_text_n] at hp
      obtain ⟨h1, h2⟩ := mem_zip_zip_map _ _ _ p hp
      rw [h2]
      exact ⟨textRows_nil S shufT hlenT p.1 hps,
        processDocOk_text_all_pad S shufT shufI p.1 hlenT hps⟩

/-- Witness for C9: the empty document of the example batch yields counts of
zero and all-padding slabs, and the batch is returned normally. -/
theorem zero_row_docs_padded_witness :
    isOkE (getitem exSeq3 id id 0) = true ∧
    ((0 : ℕ) = 0 ∧ ([[(0 : ℚ)]] : List (List ℚ)) =
      List.replicate (targetI exSeq3) (List.replicate exSeq3.featW 0)) ∧
    ((0 : ℕ) = 0 ∧ ([[1, 0], [1, 0]] : List (List ℕ)) =
      List.replicate (targetT exSeq3) (unkPadRow exSeq3.args.seq_len)) :=
  ⟨(zero_row_docs_padded exSeq3 id id 0 rfl (by decide) (fun _ => rfl)
      (fun _ => rfl) (by with_unfolding_all decide)
      (by with_unfolding_all decide)).1,
   ((zero_row_docs_padded exSeq3 id id 0 rfl (by decide) (fun _ => rfl)
      (fun _ => rfl) (by with_unfolding_all decide)
      (by with_unfolding_all decide)).2 exBatch0
      (by with_unfolding_all decide)).1 (exDoc2, ([[(0 : ℚ)]], 0))
      (by with_unfolding_all decide) (by decide),
   ((zero_row_docs_padded exSeq3 id id 0 rfl (by decide) (fun _ => rfl)
      (fun _ => rfl) (by with_unfolding_all decide)
      (by with_unfolding_all decide)).2 exBatch0
      (by with_unfolding_all decide)).2 (exDoc2, ([[1, 0], [1, 0]], 0))
      (by with_unfolding_all decide) (by decide)⟩

/-- Claim C10: when a document of the selected batch yields more feature
rows than its modality padding target (beyond the configured maximum with
subsampling off, beyond the subsample count with it on), the np.zeros
padding dimension is negative, so that document raises ValueError in
non-end-to-end mode and __getitem__ raises instead of returning a batch;
the shape guarantees therefore hold only under the implicit per-document
bound. -/
theorem overflow_raises (S : DocumentSequence)
    (shufT shufI : List ℕ → List ℕ) (idx : ℕ) (d : Doc)
    (hE : S.args.end2end = false)
    (hd : d ∈ batchDocs S.data_in S.args.docs_per_batch idx)
    (hover : targetI S < imageRows S shufI d ∨
      targetT S < textRows S shufT d) :
    processDoc S shufT shufI d = .error .valueError ∧
    (∀ b, getitem S shufT shufI idx ≠ .ok b) ∧
    (∃ e, getitem S shufT shufI idx = .error e) := by
  have hpd : processDoc S shufT shufI d = .error .valueError := by
    unfold imageRows at hover
    unfold textRows at hover
    unfold processDoc
    rw [hE]
    simp only [Bool.false_eq_true, if_false]
    by_cases h1 : targetI S <
        (images_to_matrix S.image_matrix S.image_idx2row
          (curImages S shufI d.images)).length
    · rw [if_pos h1]
    · rw [if_neg h1]
      rcases hover with h | h
      · exact absurd h h1
      · rw [if_pos h]
  have hno : ∀ os, processDocs (processDoc S shufT shufI)
      (batchDocs S.data_in S.args.docs_per_batch idx) ≠ .ok os :=
    processDocs_ne_ok _ _ d hd (fun o ho => by rw [hpd] at ho; cases ho)
  have hnb : ∀ b, getitem S shufT shufI idx ≠ .ok b := by
    intro b hb
    obtain ⟨-, -, -, -, rfl⟩ := getitem_ok_inv S shufT shufI idx b hb
    unfold getitem at hb
    by_cases hemp : (batchDocs S.data_in S.args.docs_per_batch idx).isEmpty
    · rw [if_pos hemp] at hb
      cases hb
    · rw [if_neg hemp] at hb
      cases hp : processDocs (processDoc S shufT shufI)
          (batchDocs S.data_in S.args.docs_per_batch idx) with
      | error e =>
        rw [hp] at hb
        cases hb
      | ok os => exact hno os hp
  refine ⟨hpd, hnb, ?_⟩
  cases hg : getitem S shufT shufI idx with
  | error e => exact ⟨e, rfl⟩
  | ok b => exact absurd hg (hnb b)

/-- Witness for C10: the two-image document overflows the one-row image
padding target and getitem raises ValueError. -/
theorem overflow_raises_witness :
    processDoc exSeqOver id id ⟨[0, 1], [5]⟩ = .error .valueError ∧
    getitem exSeqOver id id 0 = .error .valueError :=
  ⟨(overflow_raises exSeqOver id id 0 ⟨[0, 1], [5]⟩ rfl
      (by with_unfolding_all decide)
      (Or.inl (by with_unfolding_all decide))).1,
   by with_unfolding_all decide⟩

lemma plateauRunAux_cons (cfg : PlateauCfg) (s : PlateauState) (v : ℚ)
    (vs : List ℚ) :
    plateauRunAux cfg s (v :: vs) =
      (plateau_on_epoch_end cfg s v) ::
        plateauRunAux cfg (plateau_on_epoch_end cfg s v).1 vs := rfl

lemma in_cooldown_true_of_inactive (cfg : PlateauCfg) (v : ℚ)
    (s : PlateauState)
    (h : (in_cooldown cfg v s).1.val_threshold_activated = false) :
    (in_cooldown cfg v s).2 = true := by
  unfold in_cooldown at h ⊢
  by_cases hc : ¬ s.val_threshold_activated ∧
      ltOptInf v cfg.activation_val_loss
  · simp [hc] at h
  · simp only [hc, if_false, if_neg hc] at h ⊢
    simp [h]

lemma in_cooldown_of_activated (cfg : PlateauCfg) (v : ℚ) (s : PlateauState)
    (h : s.val_threshold_activated = true) :
    in_cooldown cfg v s = (s, decide (0 < s.cooldown_counter)) := by
  unfold in_cooldown
  simp [h]

lemma plateau_step_activated_mono (cfg : PlateauCfg) (s : PlateauState)
    (v : ℚ) (h : s.val_threshold_activated = true) :
    (plateau_on_epoch_end cfg s v).1.val_threshold_activated = true := by
  unfold plateau_on_epoch_end
  simp only [in_cooldown_of_activated cfg v s h]
  split_ifs <;> simp_all [in_cooldown, h]

lemma plateau_step_activates (cfg : PlateauCfg) (s : PlateauState) (v : ℚ)
    (h : s.val_threshold_activated = false)
    (hv : ltOptInf v cfg.activation_val_loss = true) :
    (plateau_on_epoch_end cfg s v).1 =
      { val_threshold_activated := true, cooldown_counter := 0, wait := 0,
        best := some v, lr := s.lr } ∧
    (plateau_on_epoch_end cfg s v).2 = false := by
  unfold plateau_on_epoch_end
  have h1 : in_cooldown cfg v s =
      ({ val_threshold_activated := true, cooldown_counter := 0, wait := 0,
         best := none, lr := s.lr }, false) := by
    unfold in_cooldown plateauReset
    simp [h, hv]
  rw [h1]
  simp [monitor_op]

lemma plateau_step_stays_inactive (cfg : PlateauCfg) (s : PlateauState)
    (v : ℚ) (h : s.val_threshold_activated = false)
    (hv : ltOptInf v cfg.activation_val_loss = false) :
    (plateau_on_epoch_end cfg s v).1.val_threshold_activated = false ∧
    (plateau_on_epoch_end cfg s v).2 = false ∧
    (plateau_on_epoch_end cfg s v).1.lr = s.lr := by
  have h1 : in_cooldown cfg v s = (s, true) := by
    unfold in_cooldown
    simp [h, hv]
  have h2 : ∀ cc w, in_cooldown cfg v
      { s with cooldown_counter := cc, wait := w } =
      ({ s with cooldown_counter := cc, wait := w }, true) := by
    intro cc w
    unfold in_cooldown
    simp [h, hv]
  unfold plateau_on_epoch_end
  simp only [h1, h2]
  split_ifs <;> simp_all

lemma plateau_step_inactive_inv (cfg : PlateauCfg) (s : PlateauState) (v : ℚ)
    (h : (plateau_on_epoch_end cfg s v).1.val_threshold_activated = false) :
    s.val_threshold_activated = false ∧
    ltOptInf v cfg.activation_val_loss = false := by
  by_cases hs : s.val_threshold_activated = true
  · rw [plateau_step_activated_mono cfg s v hs] at h
    cases h
  · have hs2 : s.val_threshold_activated = false := by simpa using hs
    by_cases hv : ltOptInf v cfg.activation_val_loss = true
    · obtain ⟨h1, -⟩ := plateau_step_activates cfg s v hs2 hv
      rw [h1] at h
      cases h
    · exact ⟨hs2, by simpa using hv⟩

lemma plateauRunAux_length (cfg : PlateauCfg) (vs : List ℚ) :
    ∀ s, (plateauRunAux cfg s vs).length = vs.length := by
  induction vs with
  | nil => intro s; rfl
  | cons v vs ih => intro s; rw [plateauRunAux_cons]; simp [ih]

lemma plateauRunAux_activated_all (cfg : PlateauCfg) (vs : List ℚ) :
    ∀ s, s.val_threshold_activated = true →
      ∀ q ∈ plateauRunAux cfg s vs, q.1.val_threshold_activated = true := by
  induction vs with
  | nil =>
    intro s h q hq
    simp [plateauRunAux] at hq
  | cons v vs ih =>
    intro s h q hq
    rw [plateauRunAux_cons] at hq
    rcases List.mem_cons.mp hq with rfl | hq2
    · exact plateau_step_activated_mono cfg s v h
    · exact ih _ (plateau_step_activated_mono cfg s v h) q hq2

lemma plateauRunAux_getD_mem (cfg : PlateauCfg) (s : PlateauState)
    (vs : List ℚ) (k : ℕ) (d0 : PlateauState × Bool) (hk : k < vs.length) :
    (plateauRunAux cfg s vs).getD k d0 ∈ plateauRunAux cfg s vs := by
  rw [List.getD_eq_getElem _ _ (by rw [plateauRunAux_length]; exact hk)]
  exact List.getElem_mem _

lemma plateauRunAux_mono (cfg : PlateauCfg) (d0 : PlateauState × Bool)
    (vs : List ℚ) :
    ∀ (s : PlateauState) (j k : ℕ), j ≤ k → k < vs.length →
      ((plateauRunAux cfg s vs).getD j d0).1.val_threshold_activated = true →
      ((plateauRunAux cfg s vs).getD k d0).1.val_threshold_activated = true := by
  induction vs with
  | nil =>
    intro s j k hjk hk
    simp at hk
  | cons v vs ih =>
    intro s j k hjk hk hj
    rw [plateauRunAux_cons] at hj ⊢
    cases j with
    | zero =>
      cases k with
      | zero => exact hj
      | succ k =>
        simp only [List.getD_cons_zero] at hj
        simp only [List.getD_cons_succ]
        exact plateauRunAux_activated_all cfg vs _ hj _
          (plateauRunAux_getD_mem cfg _ vs k d0 (by simpa using hk))
    | succ j =>
      cases k with
      | zero => omega
      | succ k =>
        simp only [List.getD_cons_succ] at hj ⊢
        exact ih _ j k (by omega) (by simpa using hk) hj

lemma plateauRunAux_inactive (cfg : PlateauCfg) (d0 : PlateauState × Bool)
    (vs : List ℚ) :
    ∀ (s : PlateauState) (k : ℕ), k < vs.length →
      ((plateauRunAux cfg s vs).getD k d0).1.val_threshold_activated = false →
      ∀ j, j ≤ k →
        ((plateauRunAux cfg s vs).getD j d0).2 = false ∧
        ((plateauRunAux cfg s vs).getD j d0).1.lr = s.lr := by
  induction vs with
  | nil =>
    intro s k hk
    simp at hk
  | cons v vs ih =>
    intro s k hk hinact j hj
    rw [plateauRunAux_cons] at hinact ⊢
    cases k with
    | zero =>
      obtain rfl : j = 0 := by omega
      simp only [List.getD_cons_zero] at hinact ⊢
      obtain ⟨hs, hv⟩ := plateau_step_inactive_inv cfg s v hinact
      obtain ⟨-, h2, h3⟩ := plateau_step_stays_inactive cfg s v hs hv
      exact ⟨h2, h3⟩
    | succ k =>
      have hk2 : k < vs.length := by simpa using hk
      simp only [List.getD_cons_succ] at hinact
      have hstep : (plateau_on_epoch_end cfg s v).1.val_threshold_activated =
          false := by
        by_contra hh
        have hh2 : (plateau_on_epoch_end cfg s v).1.val_threshold_activated =
            true := by simpa using hh
        have hall := plateauRunAux_activated_all cfg vs _ hh2 _
          (plateauRunAux_getD_mem cfg _ vs k d0 hk2)
        rw [hall] at hinact
        cases hinact
      obtain ⟨hs, hv⟩ := plateau_step_inactive_inv cfg s v hstep
      obtain ⟨-, h2s, h3s⟩ := plateau_step_stays_inactive cfg s v hs hv
      cases j with
      | zero =>
        simp only [List.getD_cons_zero]
        exact ⟨h2s, h3s⟩
      | succ j =>
        simp only [List.getD_cons_succ]
        have hres := ih _ k hk2 hinact j (by omega)
        rw [h3s] at hres
        exact hres

lemma plateauRunAux_first_activation (cfg : PlateauCfg)
    (d0 : PlateauState × Bool) (vs : List ℚ) :
    ∀ (s : PlateauState) (k : ℕ), k < vs.length →
      s.val_threshold_activated = false →
      (∀ j, j < k → ltOptInf (vs.getD j 0) cfg.activation_val_loss = false) →
      ltOptInf (vs.getD k 0) cfg.activation_val_loss = true →
      ((plateauRunAux cfg s vs).getD k d0).1.val_threshold_activated = true ∧
      ((plateauRunAux cfg s vs).getD k d0).1.cooldown_counter = 0 ∧
      ((plateauRunAux cfg s vs).getD k d0).1.wait = 0 := by
  induction vs with
  | nil =>
    intro s k hk
    simp at hk
  | cons v vs ih =>
    intro s k hk hs hprev hcur
    rw [plateauRunAux_cons]
    cases k with
    | zero =>
      simp only [List.getD_cons_zero] at hcur ⊢
      obtain ⟨h1, -⟩ := plateau_step_activates cfg s v hs (by simpa using hcur)
      rw [h1]
      exact ⟨rfl, rfl, rfl⟩
    | succ k =>
      have hv0 : ltOptInf v cfg.activation_val_loss = false := by
        have := hprev 0 (by omega)
        simpa using this
      have hstep := (plateau_step_stays_inactive cfg s v hs hv0).1
      simp only [List.getD_cons_succ]
      apply ih _ k (by simpa using hk) hstep
      · intro j hj
        have := hprev (j + 1) (by omega)
        simpa using this
      · simpa using hcur

/-- Claim C6: in every run of the deferred plateau reducer, while the
activation flag is down no learning-rate reduction has fired and the rate
still holds its initial value; the flag, once raised, is never lowered; on
the first epoch whose validation loss falls below the activation threshold
the flag is raised and the internal cooldown and wait counters are reset to
their initial value zero (after which normal plateau detection runs); and
in_cooldown reports cooldown whenever the flag is still down. -/
theorem plateau_dormant_until_activation (cfg : PlateauCfg) (lr0 : ℚ)
    (losses : List ℚ) :
    (∀ k, k < losses.length →
      ((plateauRun cfg lr0 losses).getD k
        (plateauInit lr0, false)).1.val_threshold_activated = false →
      ∀ j, j ≤ k →
        ((plateauRun cfg lr0 losses).getD j
          (plateauInit lr0, false)).2 = false ∧
        ((plateauRun cfg lr0 losses).getD j
          (plateauInit lr0, false)).1.lr = lr0) ∧
    (∀ j k, j ≤ k → k < losses.length →
      ((plateauRun cfg lr0 losses).getD j
        (plateauInit lr0, false)).1.val_threshold_activated = true →
      ((plateauRun cfg lr0 losses).getD k
        (plateauInit lr0, false)).1.val_threshold_activated = true) ∧
    (∀ k, k < losses.length →
      (∀ j, j < k →
        ltOptInf (losses.getD j 0) cfg.activation_val_loss = false) →
      ltOptInf (losses.getD k 0) cfg.activation_val_loss = true →
      ((plateauRun cfg lr0 losses).getD k
        (plateauInit lr0, false)).1.val_threshold_activated = true ∧
      ((plateauRun cfg lr0 losses).getD k
        (plateauInit lr0, false)).1.cooldown_counter = 0 ∧
      ((plateauRun cfg lr0 losses).getD k
        (plateauInit lr0, false)).1.wait = 0) ∧
    (∀ (s : PlateauState) (v : ℚ),
      (in_cooldown cfg v s).1.val_threshold_activated = false →
      (in_cooldown cfg v s).2 = true) := by
  refine ⟨?_, ?_, ?_, fun s v h => in_cooldown_true_of_inactive cfg v s h⟩
  · intro k hk hinact j hj
    exact plateauRunAux_inactive cfg (plateauInit lr0, false) losses
      (plateauInit lr0) k hk hinact j hj
  · intro j k hjk hk hj
    exact plateauRunAux_mono cfg (plateauInit lr0, false) losses
      (plateauInit lr0) j k hjk hk hj
  · intro k hk hprev hcur
    exact plateauRunAux_first_activation cfg (plateauInit lr0, false) losses
      (plateauInit lr0) k hk rfl hprev hcur

/-- Witness for C6 on a two-epoch run that activates at the second epoch. -/
theorem plateau_dormant_until_activation_witness :
    (((plateauRun cfgW 1 [2, 0]).getD 0 (plateauInit 1, false)).2 = false ∧
      ((plateauRun cfgW 1 [2, 0]).getD 0 (plateauInit 1, false)).1.lr = 1) ∧
    (((plateauRun cfgW 1 [2, 0]).getD 1
        (plateauInit 1, false)).1.val_threshold_activated = true ∧
      ((plateauRun cfgW 1 [2, 0]).getD 1
        (plateauInit 1, false)).1.cooldown_counter = 0 ∧
      ((plateauRun cfgW 1 [2, 0]).getD 1
        (plateauInit 1, false)).1.wait = 0) ∧
    (in_cooldown cfgW 2 (plateauInit 1)).2 = true :=
  ⟨(plateau_dormant_until_activation cfgW 1 [2, 0]).1 0 (by decide)
      (by with_unfolding_all decide) 0 (le_refl 0),
   (plateau_dormant_until_activation cfgW 1 [2, 0]).2.2.1 1 (by decide)
      (by with_unfolding_all decide) (by with_unfolding_all decide),
   (plateau_dormant_until_activation cfgW 1 [2, 0]).2.2.2 (plateauInit 1) 2
      (by with_unfolding_all decide)⟩
